import Mathlib

/-!
Verification of the etoro-sdk resilience core against its specification.

The development shallowly embeds the relevant source modules:

* `src/http/retry.ts`            — `retry`, `applyJitter`
* `src/http/rate-limiter.ts`     — `RateLimiter` (`acquire`, `processQueue`,
  `penalize`, `pruneTimestamps`)
* the trading façade (`EToroTrading.waitForOrder`, `EToroTrading.pollOrderStatus`)
* `src/ws/ws-message-parser.ts`  — `parseMessages`
* `src/ws/ws-subscription.ts`    — `WsSubscriptionTracker`
* `src/ws/ws-client.ts`          — `WsClient` (`authenticate`, `handleMessage`,
  `subscribe`, `unsubscribe`, `disconnect`, `attemptReconnect`)

Time is modelled in integral milliseconds (`Nat`); JavaScript numeric delays
are modelled as `ℚ` where fractional jitter matters.  `JSON.parse` is modelled
as an abstract partial parse function (`String → Option Json`); a `none`
result models a thrown `SyntaxError`.  The file is organised as definitions
first, theorems second.
-/

namespace EToro

/-! ## Definitions: retry engine (`src/http/retry.ts`) -/

namespace Retry

/-- Options of `retry` (`RetryOptions` in `retry.ts`).  `getRetryAfterMs` is
the optional extractor; an absent extractor is the constantly-`none`
function, matching `getRetryAfterMs?.(error)` evaluating to `undefined`. -/
structure RetryOptions (E : Type) where
  attempts : Nat
  delay : ℚ
  backoffMultiplier : ℚ := 2
  jitter : Bool := true
  shouldRetry : E → Bool
  getRetryAfterMs : E → Option ℚ := fun _ => none

/-- `applyJitter(ms)` from `retry.ts`: `ms + (Math.random() * 2 - 1) * (ms * 0.25)`.
The `Math.random()` draw is the explicit argument `r`. -/
def applyJitter (ms r : ℚ) : ℚ :=
  let jitterRange := ms * (1 / 4)
  ms + (r * 2 - 1) * jitterRange

/-- Final outcome of one `retry(fn, options)` invocation.  `errUndefined`
models the trailing `throw lastError` reached with `lastError` still
`undefined`, which happens only when `attempts ≤ 0`. -/
inductive RetryOutcome (E A : Type) where
  | ok (a : A)
  | err (e : E)
  | errUndefined
  deriving DecidableEq, Repr

/-- Loop of `retry`: `fuel` is the number of loop iterations left
(initially `attempts`), `attempt` the zero-based loop counter.  `fn i` is the
outcome of the `i`-th call of the operation and `rand i` the `Math.random()`
draw used by jitter after that call fails.  Returns the outcome, the list of
waits performed (in order) and the number of calls made. -/
def retryGo {E A : Type} (opts : RetryOptions E) (fn : Nat → Except E A)
    (rand : Nat → ℚ) : Nat → Nat → RetryOutcome E A × List ℚ × Nat
  | 0, _ => (.errUndefined, [], 0)
  | fuel + 1, attempt =>
    match fn attempt with
    | .ok a => (.ok a, [], 1)
    | .error e =>
      if attempt < opts.attempts - 1 ∧ opts.shouldRetry e then
        let retryAfter := opts.getRetryAfterMs e
        let backoff := opts.delay * opts.backoffMultiplier ^ attempt
        let waitMs :=
          if opts.jitter ∧ retryAfter = none then
            applyJitter (retryAfter.getD backoff) (rand attempt)
          else retryAfter.getD backoff
        let rest := retryGo opts fn rand fuel (attempt + 1)
        (rest.1, waitMs :: rest.2.1, rest.2.2 + 1)
      else
        (.err e, [], 1)

/-- One full `retry(fn, options)` invocation. -/
def retryRun {E A : Type} (opts : RetryOptions E) (fn : Nat → Except E A)
    (rand : Nat → ℚ) : RetryOutcome E A × List ℚ × Nat :=
  retryGo opts fn rand opts.attempts 0

/-- Witness input: options whose extractor always reports a 42 ms
Retry-After, with jitter enabled. -/
def wRetryOpts : RetryOptions Nat :=
  { attempts := 3, delay := 100, jitter := true,
    shouldRetry := fun _ => true, getRetryAfterMs := fun _ => some 42 }

/-- Witness input: options whose retry predicate always refuses. -/
def wRetryOptsNoRetry : RetryOptions Nat :=
  { attempts := 3, delay := 100, shouldRetry := fun _ => false }

/-- Witness input: an operation that always fails with error `7`. -/
def wFail : Nat → Except Nat Nat := fun _ => Except.error 7

/-- Witness input: a fixed random stream. -/
def wRand : Nat → ℚ := fun _ => 1 / 2

end Retry

/-! ## Definitions: token-bucket rate limiter (`src/http/rate-limiter.ts`) -/

namespace RateLimiter

/-- Mutable fields of the `RateLimiter` class:  `timestamps` in ascending
order of grant time, `penaltyUntil`, the FIFO `queue` of pending waiters
(identified by caller ids), and the `_disposed` flag.  The `processing`
re-entrancy flag is not represented: the model exposes single iterations of
the `processQueue` loop, of which at most one instance runs. -/
structure RLState where
  maxRequests : Nat
  windowMs : Nat
  timestamps : List Nat
  penaltyUntil : Nat
  queue : List Nat
  disposed : Bool
  deriving DecidableEq, Repr

/-- A freshly constructed limiter. -/
def mkRLState (maxRequests windowMs : Nat) : RLState :=
  { maxRequests := maxRequests, windowMs := windowMs, timestamps := [],
    penaltyUntil := 0, queue := [], disposed := false }

/-- `pruneTimestamps()`: drop leading timestamps strictly older than
`now - windowMs`.  In JS a negative cutoff prunes nothing; `Nat` truncated
subtraction yields cutoff `0` and timestamps are non-negative, so the
behaviour agrees. -/
def prunedTimestamps (now : Nat) (st : RLState) : List Nat :=
  st.timestamps.dropWhile (fun ts => ts < now - st.windowMs)

/-- How one `acquire()` call returned. -/
inductive AcquireOutcome where
  | granted
  | queued
  | disposedNoop
  deriving DecidableEq, Repr

/-- Body of `acquire()` for the caller `id`, run at wall-clock time `now`.
The penalty sleep `await sleep(penaltyUntil - now)` makes the remainder of
the body run at time `max now penaltyUntil`; the model executes that
remainder atomically at that instant.  If the bucket is under the limit the
caller takes a slot immediately, otherwise it is appended to the waiter
queue (and the source then kicks `processQueue`, which the traces below
schedule explicitly). -/
def acquireStep (now id : Nat) (st : RLState) : RLState × AcquireOutcome :=
  if st.disposed then (st, .disposedNoop)
  else
    let t := max now st.penaltyUntil
    let ts := prunedTimestamps t st
    if ts.length < st.maxRequests then
      ({ st with timestamps := ts ++ [t] }, .granted)
    else
      ({ st with timestamps := ts, queue := st.queue ++ [id] }, .queued)

/-- One iteration of the `processQueue()` while-loop at time `now`.  Returns
the waiter resolved by this iteration, if any; `none` covers loop exit
(empty queue or disposed) and the branch that goes back to sleep because the
bucket is still full. -/
def processStep (now : Nat) (st : RLState) : RLState × Option Nat :=
  if st.queue.length = 0 ∨ st.disposed then (st, none)
  else
    let t := max now st.penaltyUntil
    let ts := prunedTimestamps t st
    if ts.length < st.maxRequests then
      match st.queue with
      | [] => ({ st with timestamps := ts }, none)
      | w :: rest => ({ st with timestamps := ts ++ [t], queue := rest }, some w)
    else
      ({ st with timestamps := ts }, none)

/-- `penalize(retryAfterMs)` called at time `now`. -/
def penalize (now retryAfterMs : Nat) (st : RLState) : RLState :=
  if st.penaltyUntil < now + retryAfterMs then
    { st with penaltyUntil := now + retryAfterMs }
  else st

/-- Scheduler events of an interleaved execution: an `acquire()` call body
running at time `now` for caller `id`, one `processQueue` loop iteration
waking at time `now`, or a `penalize` call. -/
inductive RLEvent where
  | acq (now id : Nat)
  | proc (now : Nat)
  | pen (now d : Nat)
  deriving DecidableEq, Repr

/-- An execution: current limiter state plus the caller ids that have been
granted a slot so far, in grant order. -/
structure RLExec where
  st : RLState
  grants : List Nat
  deriving DecidableEq, Repr

/-- Apply one scheduler event. -/
def rlStep (ex : RLExec) : RLEvent → RLExec
  | .acq now id =>
    match acquireStep now id ex.st with
    | (st', .granted) => ⟨st', ex.grants ++ [id]⟩
    | (st', _) => ⟨st', ex.grants⟩
  | .proc now =>
    match processStep now ex.st with
    | (st', some w) => ⟨st', ex.grants ++ [w]⟩
    | (st', none) => ⟨st', ex.grants⟩
  | .pen now d => ⟨penalize now d ex.st, ex.grants⟩

/-- Run a list of scheduler events from an initial limiter state. -/
def rlRun (init : RLState) (evs : List RLEvent) : RLExec :=
  evs.foldl rlStep ⟨init, []⟩

/-- Counterexample trace for strict arrival-order granting, on a limiter
with `maxRequests := 1`, `windowMs := 10`:  caller 1 takes the slot at
t = 0; caller 2 queues at t = 0; the `processQueue` loop inspects the full
bucket at t = 0 and sleeps until t = 11 (`timestamps[0] + windowMs + 1`);
at t = 11 caller 3's fresh `acquire()` body runs first (the oldest
timestamp has expired), takes the freed slot directly, and only then does
the loop wake to find the bucket full again — caller 2 keeps waiting. -/
def fifoTrace : List RLEvent :=
  [ .acq 0 1, .acq 0 2, .proc 0, .acq 11 3, .proc 11 ]

/-- The execution of `fifoTrace`. -/
def fifoExec : RLExec := rlRun (mkRLState 1 10) fifoTrace

/-- Witness input: a full one-slot bucket whose only timestamp has aged out
at t = 11, with waiters 5 and 6 queued. -/
def wProcSt : RLState :=
  { maxRequests := 1, windowMs := 10, timestamps := [0], penaltyUntil := 0,
    queue := [5, 6], disposed := false }

/-- Witness input: a full one-slot bucket with a fresh timestamp and an
empty queue. -/
def wAcqSt : RLState :=
  { maxRequests := 1, windowMs := 10, timestamps := [11], penaltyUntil := 0,
    queue := [], disposed := false }

end RateLimiter

/-! ## Definitions: message envelope parser (`src/ws/ws-message-parser.ts`) -/

namespace Parser

/-- Abstract JSON values produced by `JSON.parse`.  `parseMessages` never
inspects the structure of a parsed `content` payload (the `as` casts are
free at runtime), so a small opaque value type suffices. -/
inductive Json where
  | null
  | str (s : String)
  | num (n : Int)
  deriving DecidableEq, Repr

/-- One entry of an inbound envelope's `messages` array. -/
structure WsMessage where
  topic : String
  content : String
  id : String
  type : String
  deriving DecidableEq, Repr

/-- The classifications produced by `parseMessages` (the `ParsedMessage`
union also declares `auth:success` / `auth:error` variants, which
`parseMessages` itself never produces and which are omitted here).
`instrumentId` is `none` when `parseInt` yielded `NaN`. -/
inductive ParsedMessage where
  | instrumentRate (instrumentId : Option Int) (rate : Json)
  | privateEvent (event : Json)
  | unknown (raw : WsMessage)
  deriving DecidableEq, Repr

/-- `s.startsWith(p)`.  (Implemented over the character lists so that it
evaluates inside the kernel; `String.startsWith` itself does not reduce.) -/
def strStartsWith (s p : String) : Bool :=
  p.data.isPrefixOf s.data

/-- Split a character list on a separator character, keeping empty groups —
the behaviour of JavaScript `s.split(sep)` for a single-character
separator. -/
def splitOnChar (sep : Char) : List Char → List (List Char)
  | [] => [[]]
  | c :: rest =>
    if c = sep then [] :: splitOnChar sep rest
    else
      match splitOnChar sep rest with
      | [] => [[c]]
      | g :: gs => (c :: g) :: gs

/-- `msg.topic.split(':')`. -/
def strSplitOnColon (s : String) : List String :=
  (splitOnChar ':' s.data).map (fun cs => String.mk cs)

/-- Digit run to a number, base 10. -/
def digitsToNat (cs : List Char) : Nat :=
  cs.foldl (fun n c => n * 10 + (c.toNat - 48)) 0

/-- JavaScript `parseInt(s, 10)`: skip leading whitespace, read an optional
sign and then the longest leading digit run; `NaN` (modelled `none`) when
no digits are read. -/
def parseIntJs (s : String) : Option Int :=
  let cs := s.data.dropWhile (fun c => c = ' ' ∨ c = '\t' ∨ c = '\n' ∨ c = '\r')
  let signAndRest : Int × List Char :=
    match cs with
    | '-' :: rest => (-1, rest)
    | '+' :: rest => (1, rest)
    | _ => (1, cs)
  let digits := signAndRest.2.takeWhile Char.isDigit
  if digits.isEmpty then none
  else some (signAndRest.1 * (digitsToNat digits : Int))

/-- The instrument id extracted from a topic:
`parseInt(msg.topic.split(':')[1], 10)`. -/
def topicInstrumentId (topic : String) : Option Int :=
  parseIntJs ((strSplitOnColon topic).getD 1 "")

/-- `parseMessages(envelope)` over the entries of the envelope's `messages`
array.  `jp` models `JSON.parse` on `content` strings; a `none` result is a
thrown `SyntaxError`, which aborts the whole call (`Except.error`),
discarding any previously accumulated results. -/
def parseMessages (jp : String → Option Json) :
    List WsMessage → Except Unit (List ParsedMessage)
  | [] => .ok []
  | msg :: rest =>
    if strStartsWith msg.topic "instrument:" then
      match jp msg.content with
      | none => .error ()
      | some rate =>
        match parseMessages jp rest with
        | .error e => .error e
        | .ok rs => .ok (.instrumentRate (topicInstrumentId msg.topic) rate :: rs)
    else if msg.topic = "private" then
      match jp msg.content with
      | none => .error ()
      | some ev =>
        match parseMessages jp rest with
        | .error e => .error e
        | .ok rs => .ok (.privateEvent ev :: rs)
    else
      match parseMessages jp rest with
      | .error e => .error e
      | .ok rs => .ok (.unknown msg :: rs)

/-- How `parseMessages` treats one entry in isolation: the branch taken
depends only on the entry's topic, and a recognized topic parses the
entry's `content` (`none` = that parse throws). -/
def classifyEntry (jp : String → Option Json) (msg : WsMessage) : Option ParsedMessage :=
  if strStartsWith msg.topic "instrument:" then
    (jp msg.content).map (fun rate => .instrumentRate (topicInstrumentId msg.topic) rate)
  else if msg.topic = "private" then
    (jp msg.content).map (fun ev => .privateEvent ev)
  else
    some (.unknown msg)

/-- Is a classification the `unknown` one? -/
def isUnknown : ParsedMessage → Bool
  | .unknown _ => true
  | _ => false

/-- Witness input: a `JSON.parse` model that accepts every string. -/
def wJpTotal : String → Option Json := fun _ => some Json.null

/-- Witness input: a `JSON.parse` model that rejects every string. -/
def wJpNone : String → Option Json := fun _ => none

/-- Counterexample input: a one-entry envelope whose topic starts with
`instrument:` but carries no integer id. -/
def wEnvBadId : List WsMessage :=
  [{ topic := "instrument:abc", content := "{}", id := "1", type := "T" }]

/-- Witness input: an entry with an unrecognized topic. -/
def wPortfolioEntry : WsMessage :=
  { topic := "portfolio", content := "b", id := "2", type := "T" }

/-- Witness input: a mixed three-entry envelope. -/
def wEnv3 : List WsMessage :=
  [{ topic := "instrument:5", content := "a", id := "1", type := "T" },
   wPortfolioEntry,
   { topic := "private", content := "c", id := "3", type := "T" }]

/-- The classification of `wEnv3` under `wJpTotal`. -/
def wRes3 : List ParsedMessage :=
  [.instrumentRate (some 5) Json.null, .unknown wPortfolioEntry, .privateEvent Json.null]

end Parser

/-! ## Definitions: WebSocket session (`src/ws/ws-client.ts`,
`src/ws/ws-subscription.ts`) -/

namespace Ws

/-- The `EToroWebSocketError` values thrown by the session. -/
inductive WsErr where
  | notConnected
  | maxReconnects
  deriving DecidableEq, Repr

/-- Observable state of a `WsClient`.  `wsOpen` models the `ws` field:
`none` is `null`, `some b` a socket whose `readyState === OPEN` iff `b`.
Timers are tracked as pending/not-pending booleans; their delays do not
affect any claim proved here. -/
structure WsState where
  wsOpen : Option Bool
  authenticated : Bool
  subscriptions : List String
  reconnectTimer : Bool
  reconnectAttempts : Nat
  intentionalClose : Bool
  heartbeatTimer : Bool
  pongTimer : Bool
  lastPongAt : Nat
  maxReconnectAttempts : Nat
  deriving DecidableEq, Repr

/-- `get isConnected(): this.ws !== null && this.ws.readyState === OPEN`. -/
def isConnected (st : WsState) : Bool :=
  match st.wsOpen with
  | some b => b
  | none => false

/-- `WsSubscriptionTracker.add` for one topic: a JS `Set` keeps insertion
order and ignores re-insertion. -/
def trackerAddOne (s : List String) (t : String) : List String :=
  if t ∈ s then s else s ++ [t]

/-- `WsSubscriptionTracker.add(topics)`. -/
def trackerAdd (s : List String) (topics : List String) : List String :=
  topics.foldl trackerAddOne s

/-- `WsSubscriptionTracker.remove(topics)` (`Set.delete` per topic). -/
def trackerRemove (s : List String) (topics : List String) : List String :=
  topics.foldl (fun acc t => acc.filter (fun x => decide (x ≠ t))) s

/-- `WsSubscriptionTracker.getAll()`. -/
def trackerGetAll (s : List String) : List String := s

/-- Events emitted on the `WsClient` typed emitter. -/
inductive WsEvent where
  | errorEv (msg : String)
  | authenticatedEv
  | rateEv (instrumentId : Option Int) (rate : Parser.Json)
  | privateEv (event : Parser.Json)
  | messageEv (env : List Parser.WsMessage)
  deriving DecidableEq, Repr

/-- An inbound text frame as seen by `handleMessage` after `JSON.parse`:
`malformed` = the parse throws; `authResp c` = the parsed value has
`operation === 'Authenticate' || type === 'Authenticate'` with `errorCode`
`c`; `dataFrame msgs` = the parsed value has a `messages` array; `other` =
valid JSON with neither marker. -/
inductive Frame where
  | malformed
  | authResp (errorCode : Option String)
  | dataFrame (msgs : List Parser.WsMessage)
  | other
  deriving DecidableEq, Repr

/-- The `switch (msg.type)` fan-out inside `handleMessage`: rate and
private classifications are emitted, `unknown` has no case. -/
def fanOutOne : Parser.ParsedMessage → Option WsEvent
  | .instrumentRate iid rate => some (.rateEv iid rate)
  | .privateEvent ev => some (.privateEv ev)
  | .unknown _ => none

/-- `handleMessage(data)`: the whole body runs in a `try` whose `catch`
only logs, so a parse failure drops the frame.  For a data frame the raw
`message` event is emitted *before* `parseMessages` runs; if
`parseMessages` throws, the typed fan-out never happens. -/
def handleMessage (jp : String → Option Parser.Json) (st : WsState) :
    Frame → WsState × List WsEvent
  | .malformed => (st, [])
  | .authResp (some code) => (st, [.errorEv ("WS auth failed: " ++ code)])
  | .authResp none => ({ st with authenticated := true }, [.authenticatedEv])
  | .dataFrame msgs =>
    match Parser.parseMessages jp msgs with
    | .error _ => (st, [.messageEv msgs])
    | .ok parsed => (st, .messageEv msgs :: parsed.filterMap fanOutOne)
  | .other => (st, [])

/-- Resolution of the promise returned by `connect()` (settled via
`authenticate()`). -/
inductive ConnectResult where
  | resolved
  | rejected (msg : String)
  deriving DecidableEq, Repr

/-- A pending `connect()`/`authenticate()` attempt: `none` = the promise is
still pending. -/
structure ConnectAttempt where
  settled : Option ConnectResult
  deriving DecidableEq, Repr

/-- How emitter events settle the attempt: `authenticate()` registers
`once('authenticated', resolve)`, so only the first `authenticated` event
resolves it.  No listener of the attempt is attached to the emitter-level
`error` event (`connect()` only wires the *socket*'s error event), so
`errorEv` leaves the attempt pending. -/
def applyEventsToAttempt (att : ConnectAttempt) (evs : List WsEvent) : ConnectAttempt :=
  evs.foldl
    (fun a ev =>
      match a.settled, ev with
      | none, .authenticatedEv => { settled := some .resolved }
      | _, _ => a)
    att

/-- Message of the `EToroAuthError` used by the `authenticate()` timeout. -/
def authTimeoutMsg : String := "WebSocket authentication timed out"

/-- The `authenticate()` timeout firing: rejects the attempt if it is still
pending. -/
def authTimeoutFire (att : ConnectAttempt) : ConnectAttempt :=
  match att.settled with
  | none => { settled := some (.rejected authTimeoutMsg) }
  | some _ => att

/-- `subscribe(topics, snapshot?)`: the tracker is updated first, then
`send` throws `EToroWebSocketError('WebSocket not connected')` when no open
socket exists — the tracker update is not rolled back.  The returned
`Option WsErr` is the thrown error, if any. -/
def subscribe (st : WsState) (topics : List String) : WsState × Option WsErr :=
  let st1 := { st with subscriptions := trackerAdd st.subscriptions topics }
  if isConnected st1 then (st1, none) else (st1, some .notConnected)

/-- `unsubscribe(topics)`: tracker removal first, then `send`. -/
def unsubscribe (st : WsState) (topics : List String) : WsState × Option WsErr :=
  let st1 := { st with subscriptions := trackerRemove st.subscriptions topics }
  if isConnected st1 then (st1, none) else (st1, some .notConnected)

/-- `disconnect()`: set `intentionalClose`, stop heartbeat timers, clear a
pending reconnect timer, close and null out the socket, reset
`authenticated`, clear the subscription set. -/
def disconnect (st : WsState) : WsState :=
  { st with intentionalClose := true,
            heartbeatTimer := false, pongTimer := false,
            reconnectTimer := false,
            wsOpen := none,
            authenticated := false,
            subscriptions := [] }

/-- `attemptReconnect()`: gives up with an error event once the attempt
counter has reached the maximum, otherwise schedules the reconnect timer
and increments the counter. -/
def attemptReconnect (st : WsState) : WsState × Option WsErr :=
  if st.reconnectAttempts ≥ st.maxReconnectAttempts then (st, some .maxReconnects)
  else ({ st with reconnectTimer := true, reconnectAttempts := st.reconnectAttempts + 1 }, none)

/-- The socket `close` handler: resets `authenticated`, stops heartbeat,
and reconnects only when the close was not intentional. -/
def handleClose (st : WsState) : WsState × Option WsErr :=
  let st1 := { st with authenticated := false, heartbeatTimer := false, pongTimer := false }
  if st1.intentionalClose then (st1, none) else attemptReconnect st1

/-- The topics replayed after a successful reconnect:
`this.subscriptions.getAll()`. -/
def resubscribeTopics (st : WsState) : List String :=
  trackerGetAll st.subscriptions

/-- Witness input: a session whose socket is closed (`ws === null`). -/
def wWsClosed : WsState :=
  { wsOpen := none, authenticated := false, subscriptions := ["private"],
    reconnectTimer := false, reconnectAttempts := 0, intentionalClose := false,
    heartbeatTimer := false, pongTimer := false, lastPongAt := 0,
    maxReconnectAttempts := 5 }

/-- Witness input: a session with an open, not yet authenticated socket. -/
def wWsOpen : WsState :=
  { wWsClosed with wsOpen := some true, subscriptions := [] }

/-- Witness input: a pending connect attempt. -/
def wAttPending : ConnectAttempt := { settled := none }

/-- Witness input: a `JSON.parse` model failing exactly on the string
`"bad"`. -/
def wJpSel : String → Option Parser.Json :=
  fun s => if s = "bad" then none else some Parser.Json.null

/-- Witness input: a two-entry envelope whose second, `private`-topic entry
has malformed content (under `wJpSel`). -/
def wEnvWithBad : List Parser.WsMessage :=
  [{ topic := "instrument:77", content := "ok", id := "1", type := "T" },
   { topic := "private", content := "bad", id := "2", type := "T" }]

end Ws

/-! ## Definitions: order completion tracker (`EToroTrading.waitForOrder`,
`EToroTrading.pollOrderStatus`) -/

namespace OrderTracker

/-- The reverse lookup `OrderStatusId[statusId]` of the numeric enum
(`Pending = 1, Filling = 2, Executed = 3, Failed = 4, Cancelled = 5`);
unknown codes interpolate as `undefined` in template strings. -/
def statusName : Nat → String
  | 1 => "Pending"
  | 2 => "Filling"
  | 3 => "Executed"
  | 4 => "Failed"
  | 5 => "Cancelled"
  | _ => "undefined"

/-- A WS private order event (`WsPrivateEvent`).  Fields that the wire may
omit are `Option`s (`undefined` = `none`). -/
structure WsPrivateEvent where
  OrderID : Int
  OrderType : Int
  StatusID : Nat
  InstrumentID : Int
  CID : Int
  RequestedUnits : ℚ
  ExecutedUnits : ℚ
  NetProfit : ℚ
  CloseReason : Option String
  OpenDateTime : String
  RequestOccurred : String
  PositionID : Option Int
  Amount : Option ℚ
  ErrorCode : Option Int
  ErrorMessage : Option String
  deriving DecidableEq, Repr

/-- The REST `getOrder` response (`OrderForOpenInfoResponse`), restricted
to the fields `waitForOrder`/`pollOrderStatus` read.  `positions` holds the
position ids; `cid` models the untyped `(info as any).CID`. -/
structure OrderInfo where
  orderID : Int
  orderType : Int
  statusID : Nat
  instrumentID : Int
  units : ℚ
  requestOccurred : String
  positions : List Int
  amount : Option ℚ
  cid : Option Int
  errorCode : Option Int
  errorMessage : Option String
  deriving DecidableEq, Repr

/-- The `WsPrivateEvent`-like value `waitForOrder` constructs from a REST
response when the poll fallback resolves. -/
def eventFromInfo (info : OrderInfo) : WsPrivateEvent :=
  { OrderID := info.orderID, OrderType := info.orderType,
    StatusID := info.statusID, InstrumentID := info.instrumentID,
    CID := info.cid.getD 0,
    RequestedUnits := info.units, ExecutedUnits := info.units,
    NetProfit := 0, CloseReason := some "",
    OpenDateTime := info.requestOccurred, RequestOccurred := info.requestOccurred,
    PositionID := info.positions.head?, Amount := info.amount,
    ErrorCode := info.errorCode, ErrorMessage := info.errorMessage }

/-- One iteration's outcome of the `getOrder` call inside
`pollOrderStatus`: either a fetched response, or a thrown non-`EToroError`
(e.g. a 404 for very fast executions), which the loop swallows. -/
inductive PollFetch where
  | fetched (info : OrderInfo)
  | httpError
  deriving DecidableEq, Repr

/-- The `EToroError` message thrown by `pollOrderStatus` on a terminal
failure status: carries the server-supplied `errorMessage` (or
`'unknown reason'`). -/
def pollFailMsg (orderId : Int) (info : OrderInfo) : String :=
  "Order " ++ toString orderId ++ " was " ++ statusName info.statusID ++ ": "
    ++ info.errorMessage.getD "unknown reason"

/-- The timeout `EToroError` message of `pollOrderStatus`. -/
def pollTimeoutMsg (orderId : Int) (timeoutMs : ℚ) : String :=
  "Timeout waiting for order " ++ toString orderId ++ " execution after "
    ++ toString timeoutMs ++ "ms"

/-- `pollOrderStatus(orderId, timeoutMs)`: the while-loop abstracted over
the sequence of per-iteration fetch outcomes that occur within the time
budget; the end of the list is the budget running out.  Executed returns
the response; Cancelled/Failed throws an `EToroError` (rethrown past the
inner catch because `err instanceof EToroError`); any other status — and
any non-`EToroError` fetch failure — keeps polling. -/
def pollOrderStatus (orderId : Int) (timeoutMs : ℚ) :
    List PollFetch → Except String OrderInfo
  | [] => .error (pollTimeoutMsg orderId timeoutMs)
  | .fetched info :: rest =>
    if info.statusID = 3 then .ok info
    else if info.statusID = 5 ∨ info.statusID = 4 then
      .error (pollFailMsg orderId info)
    else pollOrderStatus orderId timeoutMs rest
  | .httpError :: rest => pollOrderStatus orderId timeoutMs rest

/-- `const pollDelay = Math.min(3_000, timeoutMs / 2)`. -/
def pollDelay (timeoutMs : ℚ) : ℚ := min 3000 (timeoutMs / 2)

/-- How a pending `waitForOrder` future has settled. -/
inductive WaitOutcome where
  | resolvedWith (ev : WsPrivateEvent)
  | rejectedWith (msg : String)
  deriving DecidableEq, Repr

/-- The closure state of one `waitForOrder(orderId, timeoutMs)` promise:
the `settled` flag, the resolution (if any), and whether the outer timeout
timer, the poll fallback timer and the `order:update` listener are still
registered. -/
structure OrderWait where
  orderId : Int
  timeoutMs : ℚ
  settled : Bool
  outcome : Option WaitOutcome
  timerActive : Bool
  pollTimerActive : Bool
  listenerActive : Bool
  deriving DecidableEq, Repr

/-- The state right after `waitForOrder` wires its timers and listener. -/
def mkOrderWait (orderId : Int) (timeoutMs : ℚ) : OrderWait :=
  { orderId := orderId, timeoutMs := timeoutMs, settled := false,
    outcome := none, timerActive := true, pollTimerActive := true,
    listenerActive := true }

/-- `cleanup()`: clear both timers and unregister the listener. -/
def cleanup (w : OrderWait) : OrderWait :=
  { w with timerActive := false, pollTimerActive := false, listenerActive := false }

/-- The rejection message built by the WS handler for a Failed/Cancelled
event: `ErrorMessage ?? CloseReason ?? 'unknown reason'` and
`ErrorCode ?? 'none'`. -/
def wsRejectMsg (orderId : Int) (ev : WsPrivateEvent) : String :=
  "Order " ++ toString orderId ++ " " ++ statusName ev.StatusID ++ ": "
    ++ ((ev.ErrorMessage.orElse (fun _ => ev.CloseReason)).getD "unknown reason")
    ++ " (errorCode: "
    ++ (match ev.ErrorCode with | some c => toString c | none => "none") ++ ")"

/-- The `order:update` handler of `waitForOrder`: ignores other order ids
and already-settled waits; Executed resolves, Failed/Cancelled rejects,
Pending/Filling keep waiting. -/
def wsHandler (w : OrderWait) (ev : WsPrivateEvent) : OrderWait :=
  if ev.OrderID ≠ w.orderId ∨ w.settled then w
  else if ev.StatusID = 3 then
    cleanup { w with settled := true, outcome := some (.resolvedWith ev) }
  else if ev.StatusID = 4 ∨ ev.StatusID = 5 then
    cleanup { w with settled := true, outcome := some (.rejectedWith (wsRejectMsg w.orderId ev)) }
  else w

/-- The `.then`/`.catch` continuation attached to the `pollOrderStatus`
promise inside the poll fallback: a fulfilled poll resolves the wait (if
still pending) with the constructed event; *any* rejected poll — including
the terminal-failure `EToroError` — is caught and only logged, leaving the
wait untouched. -/
def pollSettle (w : OrderWait) (res : Except String OrderInfo) : OrderWait :=
  match res with
  | .ok info =>
    if w.settled then w
    else cleanup { w with settled := true, outcome := some (.resolvedWith (eventFromInfo info)) }
  | .error _ => w

/-- The poll fallback timer firing after `pollDelay`: a no-op when the wait
already settled, otherwise it runs `pollOrderStatus` with the remaining
budget and feeds the result to the continuation. -/
def pollTimerFire (w : OrderWait) (fetches : List PollFetch) : OrderWait :=
  if w.settled then w
  else pollSettle w (pollOrderStatus w.orderId (w.timeoutMs - pollDelay w.timeoutMs) fetches)

/-- The outer timeout firing. -/
def timeoutFire (w : OrderWait) : OrderWait :=
  if w.settled then w
  else
    cleanup
      { w with
        settled := true,
        outcome := some (.rejectedWith ("Timeout waiting for order " ++ toString w.orderId
          ++ " after " ++ toString w.timeoutMs ++ "ms")) }

/-- Projection used by decidable counterexamples. -/
def exceptErr {A : Type} : Except String A → Option String
  | .error s => some s
  | .ok _ => none

/-- Witness input: a REST response reporting order 42 Cancelled with a
server-supplied reason. -/
def wInfoCancelled : OrderInfo :=
  { orderID := 42, orderType := 1, statusID := 5, instrumentID := 100000,
    units := 1, requestOccurred := "t0", positions := [], amount := none,
    cid := none, errorCode := none, errorMessage := some "User cancelled" }

/-- Witness input: a REST response reporting order 42 Executed. -/
def wInfoExecuted : OrderInfo :=
  { orderID := 42, orderType := 1, statusID := 3, instrumentID := 100000,
    units := 1, requestOccurred := "t0", positions := [777], amount := some 50,
    cid := none, errorCode := none, errorMessage := none }

/-- Witness input: a pending wait for order 42 with a 30 s budget. -/
def wWait : OrderWait := mkOrderWait 42 30000

end OrderTracker

/-! ## Theorems: retry engine -/

namespace Retry

/-- Helper: the `j`-th recorded wait of the retry loop corresponds to the
failure of call `attempt + j`; whenever the extractor yields a defined
override for that failure, the wait equals it exactly. -/
theorem retryGo_waits_spec {E A : Type} (opts : RetryOptions E) (fn : Nat → Except E A)
    (rand : Nat → ℚ) :
    ∀ (fuel attempt j : Nat) (e : E) (d : ℚ),
      j < (retryGo opts fn rand fuel attempt).2.1.length →
      fn (attempt + j) = Except.error e →
      opts.getRetryAfterMs e = some d →
      (retryGo opts fn rand fuel attempt).2.1.get? j = some d := by
  intro fuel
  induction fuel with
  | zero =>
    intro attempt j e d h _ _
    simp [retryGo] at h
  | succ f ih =>
    intro attempt j e d h hfn hra
    rcases hcase : fn attempt with e' | a
    · by_cases hc : attempt < opts.attempts - 1 ∧ opts.shouldRetry e'
      · cases j with
        | zero =>
          rw [Nat.add_zero, hcase] at hfn
          have he : e' = e := by injection hfn
          subst he
          simp [retryGo, hcase, hc, hra]
        | succ j' =>
          have hlen : j' < (retryGo opts fn rand f (attempt + 1)).2.1.length := by
            simp [retryGo, hcase, hc] at h
            omega
          have hstep := ih (attempt + 1) j' e d hlen
            (by rw [← hfn]; congr 1; omega) hra
          simpa [retryGo, hcase, hc] using hstep
      · simp [retryGo, hcase, hc] at h
    · simp [retryGo, hcase] at h

/-- Helper: when every call fails and every failure is retryable, the loop
ends by rethrowing the error of the final call (index `attempts - 1`). -/
theorem retryGo_all_fail {E A : Type} (opts : RetryOptions E) (fn : Nat → Except E A)
    (rand : Nat → ℚ) (errf : Nat → E)
    (hfail : ∀ i, fn i = Except.error (errf i))
    (hretry : ∀ i, opts.shouldRetry (errf i) = true) :
    ∀ fuel attempt, 1 ≤ fuel → attempt + fuel = opts.attempts →
      (retryGo opts fn rand fuel attempt).1 = .err (errf (opts.attempts - 1)) := by
  intro fuel
  induction fuel with
  | zero => intro attempt h _; omega
  | succ f ih =>
    intro attempt _ htot
    rcases Nat.eq_zero_or_pos f with hf | hf
    · subst hf
      have hlast : attempt = opts.attempts - 1 := by omega
      have hnot : ¬ (attempt < opts.attempts - 1 ∧ opts.shouldRetry (errf attempt)) := by
        intro hcontra
        omega
      rw [← hlast]
      simp [retryGo, hfail attempt, hnot]
    · have hcond : attempt < opts.attempts - 1 ∧ opts.shouldRetry (errf attempt) := by
        refine ⟨by omega, by simp [hretry attempt]⟩
      have := ih (attempt + 1) (by omega) (by omega)
      simp [retryGo, hfail attempt, hcond, this]

/-- C5: whenever the `getRetryAfterMs` extractor returns a defined override
delay for the failure that triggers the `i`-th wait, that wait equals the
extractor's value exactly — for every jitter setting and every random
stream, i.e. jitter is never applied to the override. -/
theorem retry_retryAfter_used_verbatim {E A : Type} (opts : RetryOptions E)
    (fn : Nat → Except E A) (rand : Nat → ℚ) (i : Nat) (e : E) (d : ℚ)
    (hlen : i < (retryRun opts fn rand).2.1.length)
    (hfn : fn i = Except.error e)
    (hra : opts.getRetryAfterMs e = some d) :
    (retryRun opts fn rand).2.1.get? i = some d :=
  retryGo_waits_spec opts fn rand opts.attempts 0 i e d hlen (by simpa using hfn) hra

/-- Witness for C5: with the extractor fixed at 42 ms, jitter on and a
nontrivial random stream, the first wait is exactly 42. -/
theorem retry_retryAfter_used_verbatim_witness :
    (retryRun wRetryOpts wFail wRand).2.1.get? 0 = some 42 :=
  retry_retryAfter_used_verbatim wRetryOpts wFail wRand 0 7 42 (by decide) rfl rfl

/-- C6: (1) if the first call fails with an error the predicate refuses to
retry, the operation is called exactly once, no wait happens, and the retry
function rethrows that very error; (2) when every call fails retryably, the
exhausted loop rethrows the original error of the final attempt unchanged. -/
theorem retry_rethrows_original_error {E A : Type} (opts : RetryOptions E)
    (fn : Nat → Except E A) (rand : Nat → ℚ) (hatt : 1 ≤ opts.attempts) :
    (∀ e : E, fn 0 = Except.error e → opts.shouldRetry e = false →
        retryRun opts fn rand = (.err e, [], 1)) ∧
    (∀ errf : Nat → E, (∀ i, fn i = Except.error (errf i)) →
        (∀ i, opts.shouldRetry (errf i) = true) →
        (retryRun opts fn rand).1 = .err (errf (opts.attempts - 1))) := by
  constructor
  · intro e hfn hs
    obtain ⟨n, hn⟩ : ∃ n, opts.attempts = n + 1 := ⟨opts.attempts - 1, by omega⟩
    have hnot : ¬ (0 < n ∧ opts.shouldRetry e) := by
      intro hcontra
      rw [hs] at hcontra
      simp at hcontra
    simp [retryRun, hn, retryGo, hfn, hnot]
  · intro errf hfail hretry
    exact retryGo_all_fail opts fn rand errf hfail hretry opts.attempts 0 hatt (by omega)

/-- Witness for C6: with three attempts available, a never-retry predicate
yields exactly one call and the original error 7; an always-fail,
always-retry run also ends with the original error 7. -/
theorem retry_rethrows_original_error_witness :
    retryRun wRetryOptsNoRetry wFail wRand = (.err 7, [], 1) ∧
    (retryRun wRetryOpts wFail wRand).1 = .err 7 :=
  ⟨(retry_rethrows_original_error wRetryOptsNoRetry wFail wRand (by decide)).1 7 rfl rfl,
   (retry_rethrows_original_error wRetryOpts wFail wRand (by decide)).2
     (fun _ => 7) (fun _ => rfl) (fun _ => rfl)⟩

end Retry

/-! ## Theorems: message envelope parser -/

namespace Parser

/-- C4 counterexample: the entry with topic `instrument:abc` — which starts
with `instrument:` but carries no integer id — is classified as an
instrument-rate result (with a `NaN` id), not as `unknown`, because the
source tests only `msg.topic.startsWith('instrument:')`. -/
theorem parse_unknown_counterexample :
    (parseMessages wJpTotal wEnvBadId).toOption = some [.instrumentRate none Json.null] ∧
    ((parseMessages wJpTotal wEnvBadId).toOption.getD []).map isUnknown = [false] := by
  decide

/-- C4 amended: on a successful parse, the output has one result per entry
in the same order, each entry is classified purely by its own topic
(`startsWith 'instrument:'`, then exact `private`), and every entry whose
topic neither starts with `instrument:` nor equals `private` yields an
`unknown` result carrying the raw entry. -/
theorem parseMessages_classification (jp : String → Option Json) :
    ∀ (env : List WsMessage) (res : List ParsedMessage), parseMessages jp env = .ok res →
      res.length = env.length ∧
      (∀ (i : Nat) (m : WsMessage), env[i]? = some m → res[i]? = classifyEntry jp m) ∧
      (∀ (i : Nat) (m : WsMessage), env[i]? = some m →
        ¬ strStartsWith m.topic "instrument:" → m.topic ≠ "private" →
        res[i]? = some (.unknown m)) := by
  intro env
  induction env with
  | nil =>
    intro res h
    simp [parseMessages] at h
    subst h
    simp
  | cons msg rest ih =>
    intro res h
    have main : res.length = (msg :: rest).length ∧
        (∀ (i : Nat) (m : WsMessage), (msg :: rest)[i]? = some m →
          res[i]? = classifyEntry jp m) := by
      by_cases h1 : strStartsWith msg.topic "instrument:"
      · rcases hjp : jp msg.content with _ | rate
        · simp [parseMessages, h1, hjp] at h
        · rcases hrest : parseMessages jp rest with e | rs
          · simp [parseMessages, h1, hjp, hrest] at h
          · simp [parseMessages, h1, hjp, hrest] at h
            subst h
            obtain ⟨hlen, hidx, _⟩ := ih rs hrest
            refine ⟨by simp [hlen], ?_⟩
            intro i m hm
            cases i with
            | zero =>
              simp at hm
              subst hm
              simp [classifyEntry, h1, hjp]
            | succ j =>
              simp at hm ⊢
              exact hidx j m hm
      · by_cases h2 : msg.topic = "private"
        · rcases hjp : jp msg.content with _ | ev
          · simp only [parseMessages] at h
            rw [if_neg (by simp [h1]), if_pos h2, hjp] at h
            simp at h
          · rcases hrest : parseMessages jp rest with e | rs
            · simp only [parseMessages] at h
              rw [if_neg (by simp [h1]), if_pos h2, hjp, hrest] at h
              simp at h
            · simp only [parseMessages] at h
              rw [if_neg (by simp [h1]), if_pos h2, hjp, hrest] at h
              simp only [Except.ok.injEq] at h
              subst h
              obtain ⟨hlen, hidx, _⟩ := ih rs hrest
              refine ⟨by simp [hlen], ?_⟩
              intro i m hm
              cases i with
              | zero =>
                simp at hm
                subst hm
                simp [classifyEntry, h1, hjp]
                simp [h2]
              | succ j =>
                simp at hm ⊢
                exact hidx j m hm
        · rcases hrest : parseMessages jp rest with e | rs
          · simp [parseMessages, h1, h2, hrest] at h
          · simp [parseMessages, h1, h2, hrest] at h
            subst h
            obtain ⟨hlen, hidx, _⟩ := ih rs hrest
            refine ⟨by simp [hlen], ?_⟩
            intro i m hm
            cases i with
            | zero =>
              simp at hm
              subst hm
              simp [classifyEntry, h1, h2]
            | succ j =>
              simp at hm ⊢
              exact hidx j m hm
    refine ⟨main.1, main.2, ?_⟩
    intro i m hm hnotinst hnotpriv
    have := main.2 i m hm
    rw [this]
    simp [classifyEntry, hnotinst, hnotpriv]

/-- Witness for the amended C4 theorem, on a mixed three-entry envelope. -/
theorem parseMessages_classification_witness :
    wRes3.length = wEnv3.length ∧ wRes3[1]? = some (.unknown wPortfolioEntry) := by
  have h := parseMessages_classification wJpTotal wEnv3 wRes3 rfl
  exact ⟨h.1, by
    have h2 := h.2.2 1 wPortfolioEntry (by decide) (by decide) (by decide)
    simpa using h2⟩

/-- Helper for C10: an entry with a recognized topic (`instrument:*` prefix
or exactly `private`) whose content fails to parse makes the whole
`parseMessages` call throw, discarding every accumulated result. -/
theorem parseMessages_error_of_malformed (jp : String → Option Json) :
    ∀ (env : List WsMessage) (m : WsMessage), m ∈ env →
      (strStartsWith m.topic "instrument:" ∨ m.topic = "private") →
      jp m.content = none →
      parseMessages jp env = .error () := by
  intro env
  induction env with
  | nil => intro m hm _ _; simp at hm
  | cons msg rest ih =>
    intro m hm hrec hbad
    rcases List.mem_cons.mp hm with he | htail
    · subst he
      rcases hrec with h1 | h2
      · simp [parseMessages, h1, hbad]
      · by_cases h1 : strStartsWith m.topic "instrument:"
        · simp [parseMessages, h1, hbad]
        · simp only [parseMessages]
          rw [if_neg (by simp [h1]), if_pos h2, hbad]
    · have hres := ih m htail hrec hbad
      by_cases h1 : strStartsWith msg.topic "instrument:"
      · rcases hjp : jp msg.content with _ | rate
        · simp [parseMessages, h1, hjp]
        · simp [parseMessages, h1, hjp, hres]
      · by_cases h2 : msg.topic = "private"
        · rcases hjp : jp msg.content with _ | ev
          · simp only [parseMessages]
            rw [if_neg (by simp [h1]), if_pos h2, hjp]
          · simp only [parseMessages]
            rw [if_neg (by simp [h1]), if_pos h2, hjp, hres]
        · simp [parseMessages, h1, h2, hres]

end Parser

/-! ## Theorems: token-bucket rate limiter -/

namespace RateLimiter

/-- C2 counterexample: on a limiter with `maxRequests = 1`, `windowMs = 10`,
caller 2's `acquire()` is queued at t = 0, yet caller 3's later `acquire()`
(t = 11, after the slot ages out but before the sleeping `processQueue`
iteration wakes) is granted a slot while caller 2 is still queued — grants
are `[1, 3]` with waiter 2 left in the queue, refuting strict arrival-order
granting across `acquire()` calls. -/
theorem rl_fifo_bypass_counterexample :
    fifoExec.grants = [1, 3] ∧ fifoExec.st.queue = [2] := by decide

/-- C2 amended: among queued waiters the discipline is FIFO — a
`processQueue` iteration that resolves a waiter resolves exactly one,
namely the head of the queue, and a queuing `acquire()` appends its caller
at the back; however (per the counterexample) an `acquire()` arriving while
a slot is free may be granted ahead of queued waiters. -/
theorem rl_queue_fifo (now : Nat) (st : RLState) :
    (∀ st' w, processStep now st = (st', some w) →
        st.queue.head? = some w ∧ st'.queue = st.queue.tail) ∧
    (∀ id st', acquireStep now id st = (st', .queued) →
        st'.queue = st.queue ++ [id]) := by
  constructor
  · intro st' w h
    simp only [processStep] at h
    split_ifs at h with h1 h2
    · simp at h
    · rcases hq : st.queue with _ | ⟨q0, qrest⟩
      · rw [hq] at h
        simp at h
      · rw [hq] at h
        simp only [Prod.mk.injEq, Option.some.injEq] at h
        rcases h with ⟨hst, hw⟩
        subst hw
        constructor
        · simp [hq]
        · rw [← hst]
          simp
    · simp at h
  · intro id st' h
    simp only [acquireStep] at h
    split_ifs at h with h1 h2
    · simp at h
    · simp at h
    · simp only [Prod.mk.injEq] at h
      rw [← h.1]

/-- Witness for the amended C2 theorem: waiter 5 (queue head) is the one
resolved when the slot frees, and a queuing caller 9 lands at the back. -/
theorem rl_queue_fifo_witness :
    (wProcSt.queue.head? = some 5 ∧ (processStep 11 wProcSt).1.queue = wProcSt.queue.tail) ∧
    (acquireStep 11 9 wAcqSt).1.queue = wAcqSt.queue ++ [9] :=
  ⟨(rl_queue_fifo 11 wProcSt).1 (processStep 11 wProcSt).1 5 (by decide),
   (rl_queue_fifo 11 wAcqSt).2 9 (acquireStep 11 9 wAcqSt).1 (by decide)⟩

/-- C7: `penalize(d)` at time `now` sets the deadline to
`max penaltyUntil (now + d)` — monotonically non-decreasing — and
`penalize(x)` immediately followed by `penalize(y)` with `y < x` leaves the
state (hence the effective deadline) unchanged. -/
theorem penalize_monotone (now d x y : Nat) (st : RLState) (hyx : y < x) :
    (penalize now d st).penaltyUntil = max st.penaltyUntil (now + d) ∧
    penalize now y (penalize now x st) = penalize now x st := by
  constructor
  · unfold penalize
    split_ifs with h
    · simp
      omega
    · simp
      omega
  · by_cases h : st.penaltyUntil < now + x
    · simp only [penalize, if_pos h]
      rw [if_neg (by simp; omega)]
    · simp only [penalize, if_neg h]
      rw [if_neg (by omega)]

/-- Witness for C7 on a fresh limiter: `penalize(5)` then `penalize(3)` at
t = 0 keeps the deadline produced by the first call. -/
theorem penalize_monotone_witness :
    (penalize 0 5 (mkRLState 1 10)).penaltyUntil = max (mkRLState 1 10).penaltyUntil (0 + 5) ∧
    penalize 0 3 (penalize 0 5 (mkRLState 1 10)) = penalize 0 5 (mkRLState 1 10) :=
  penalize_monotone 0 5 5 3 (mkRLState 1 10) (by decide)

end RateLimiter

/-! ## Theorems: WebSocket session -/

namespace Ws

/-- Adding a topic keeps it in the set. -/
theorem mem_trackerAddOne_self (s : List String) (t : String) : t ∈ trackerAddOne s t := by
  unfold trackerAddOne
  split
  · assumption
  · simp

/-- Adding a topic preserves existing members. -/
theorem mem_trackerAddOne_of_mem {s : List String} {u : String} (t : String)
    (h : u ∈ s) : u ∈ trackerAddOne s t := by
  unfold trackerAddOne
  split
  · exact h
  · simp [h]

/-- `add` preserves existing members. -/
theorem mem_trackerAdd_of_mem {u : String} :
    ∀ (topics : List String) (s : List String), u ∈ s → u ∈ trackerAdd s topics := by
  intro topics
  induction topics with
  | nil => intro s h; simpa [trackerAdd] using h
  | cons x rest ih =>
    intro s h
    simpa [trackerAdd] using ih (trackerAddOne s x) (mem_trackerAddOne_of_mem x h)

/-- Every added topic is a member afterwards. -/
theorem mem_trackerAdd_self {t : String} :
    ∀ (topics : List String) (s : List String), t ∈ topics → t ∈ trackerAdd s topics := by
  intro topics
  induction topics with
  | nil => intro s h; simp at h
  | cons x rest ih =>
    intro s h
    rcases List.mem_cons.mp h with he | htail
    · subst he
      exact mem_trackerAdd_of_mem rest (trackerAddOne s t) (mem_trackerAddOne_self s t)
    · simpa [trackerAdd] using ih (trackerAddOne s x) htail

/-- `remove` introduces no members. -/
theorem not_mem_trackerRemove_of_not_mem {u : String} :
    ∀ (topics : List String) (s : List String), u ∉ s → u ∉ trackerRemove s topics := by
  intro topics
  induction topics with
  | nil => intro s h; simpa [trackerRemove] using h
  | cons x rest ih =>
    intro s h
    have : u ∉ s.filter (fun y => decide (y ≠ x)) := by
      intro hc
      exact h (List.mem_of_mem_filter hc)
    simpa [trackerRemove] using ih _ this

/-- Every removed topic is gone afterwards. -/
theorem not_mem_trackerRemove_self {t : String} :
    ∀ (topics : List String) (s : List String), t ∈ topics → t ∉ trackerRemove s topics := by
  intro topics
  induction topics with
  | nil => intro s h; simp at h
  | cons x rest ih =>
    intro s h
    rcases List.mem_cons.mp h with he | htail
    · subst he
      have : t ∉ s.filter (fun y => decide (y ≠ t)) := by simp
      simpa [trackerRemove] using not_mem_trackerRemove_of_not_mem rest _ this
    · simpa [trackerRemove] using ih _ htail

/-- C3 counterexample: with `connect()` pending on a freshly opened, not yet
authenticated session, an `Authenticate` frame carrying `errorCode = E401`
emits an auth-failure error event and leaves `authenticated = false`, but
the connect attempt is *still pending* afterwards — it is only the later
auth-timeout firing that rejects it.  This refutes "the connect() call
fails at that moment ... it does not wait for the bounded auth timeout". -/
theorem auth_error_frame_counterexample :
    applyEventsToAttempt wAttPending
        (handleMessage Parser.wJpTotal wWsOpen (.authResp (some "E401"))).2 = wAttPending ∧
    (handleMessage Parser.wJpTotal wWsOpen (.authResp (some "E401"))).2
        = [.errorEv "WS auth failed: E401"] ∧
    (handleMessage Parser.wJpTotal wWsOpen (.authResp (some "E401"))).1.authenticated = false ∧
    authTimeoutFire wAttPending = { settled := some (.rejected authTimeoutMsg) } := by
  decide

/-- C3 amended: an explicit auth-error frame emits an authentication-failure
error event and leaves the session state (in particular `authenticated`)
unchanged, so the session never advances to AUTHENTICATED from it; but the
frame does not settle a pending `connect()` — the attempt fails only when
the bounded auth timeout fires. -/
theorem auth_error_frame_behavior (jp : String → Option Parser.Json) (st : WsState)
    (code : String) (att : ConnectAttempt) (hpend : att.settled = none) :
    handleMessage jp st (.authResp (some code))
      = (st, [.errorEv ("WS auth failed: " ++ code)]) ∧
    applyEventsToAttempt att (handleMessage jp st (.authResp (some code))).2 = att ∧
    authTimeoutFire att = { settled := some (.rejected authTimeoutMsg) } := by
  refine ⟨rfl, ?_, ?_⟩
  · simp [applyEventsToAttempt, handleMessage, hpend]
  · simp [authTimeoutFire, hpend]

/-- Witness for the amended C3 theorem on a concrete pending attempt. -/
theorem auth_error_frame_behavior_witness :
    handleMessage Parser.wJpNone wWsOpen (.authResp (some "X"))
      = (wWsOpen, [.errorEv ("WS auth failed: " ++ "X")]) ∧
    applyEventsToAttempt wAttPending
      (handleMessage Parser.wJpNone wWsOpen (.authResp (some "X"))).2 = wAttPending ∧
    authTimeoutFire wAttPending = { settled := some (.rejected authTimeoutMsg) } :=
  auth_error_frame_behavior Parser.wJpNone wWsOpen "X" wAttPending rfl

/-- C8: `disconnect()` sets the intentional-close flag, cancels the
reconnect timer and both heartbeat timers, closes and nulls the socket,
resets `authenticated`, and empties the subscription set, while leaving the
reconnect-attempt counter, the last-pong timestamp and the configuration
untouched; and the close handler running afterwards schedules no reconnect
(same state, no error, reconnect timer still clear). -/
theorem disconnect_frame_effect (st : WsState) :
    (disconnect st).intentionalClose = true ∧
    (disconnect st).heartbeatTimer = false ∧
    (disconnect st).pongTimer = false ∧
    (disconnect st).reconnectTimer = false ∧
    (disconnect st).wsOpen = none ∧
    (disconnect st).authenticated = false ∧
    (disconnect st).subscriptions = [] ∧
    (disconnect st).reconnectAttempts = st.reconnectAttempts ∧
    (disconnect st).lastPongAt = st.lastPongAt ∧
    (disconnect st).maxReconnectAttempts = st.maxReconnectAttempts ∧
    handleClose (disconnect st) = (disconnect st, none) :=
  ⟨rfl, rfl, rfl, rfl, rfl, rfl, rfl, rfl, rfl, rfl, rfl⟩

/-- C9: on a session without an open socket, `subscribe` adds the topics to
the subscription set and *then* throws the synchronous not-connected error,
without rolling the set back — so the topics are part of what the reconnect
logic replays; symmetrically `unsubscribe` removes the topics before
throwing. -/
theorem subscribe_closed_socket (st : WsState) (topics : List String)
    (hclosed : isConnected st = false) :
    ((subscribe st topics).2 = some .notConnected ∧
      (subscribe st topics).1.subscriptions = trackerAdd st.subscriptions topics ∧
      (∀ t ∈ topics, t ∈ (subscribe st topics).1.subscriptions) ∧
      (∀ t ∈ topics, t ∈ resubscribeTopics (subscribe st topics).1)) ∧
    ((unsubscribe st topics).2 = some .notConnected ∧
      (unsubscribe st topics).1.subscriptions = trackerRemove st.subscriptions topics ∧
      (∀ t ∈ topics, t ∉ (unsubscribe st topics).1.subscriptions)) := by
  have hconn : ∀ subs : List String, isConnected { st with subscriptions := subs } = false :=
    fun _ => hclosed
  constructor
  · refine ⟨?_, ?_, ?_, ?_⟩
    · simp [subscribe, hconn]
    · simp [subscribe, hconn]
    · intro t ht
      simp [subscribe, hconn]
      exact mem_trackerAdd_self topics st.subscriptions ht
    · intro t ht
      simp [subscribe, resubscribeTopics, trackerGetAll, hconn]
      exact mem_trackerAdd_self topics st.subscriptions ht
  · refine ⟨?_, ?_, ?_⟩
    · simp [unsubscribe, hconn]
    · simp [unsubscribe, hconn]
    · intro t ht
      simp [unsubscribe, hconn]
      exact not_mem_trackerRemove_self topics st.subscriptions ht

/-- Witness for C9 on a closed session. -/
theorem subscribe_closed_socket_witness :
    ((subscribe wWsClosed ["instrument:5"]).2 = some .notConnected ∧
      "instrument:5" ∈ (subscribe wWsClosed ["instrument:5"]).1.subscriptions ∧
      "instrument:5" ∈ resubscribeTopics (subscribe wWsClosed ["instrument:5"]).1) ∧
    ((unsubscribe wWsClosed ["private"]).2 = some .notConnected ∧
      "private" ∉ (unsubscribe wWsClosed ["private"]).1.subscriptions) := by
  have h1 := subscribe_closed_socket wWsClosed ["instrument:5"] (by decide)
  have h2 := subscribe_closed_socket wWsClosed ["private"] (by decide)
  exact ⟨⟨h1.1.1, h1.1.2.2.1 "instrument:5" (by simp), h1.1.2.2.2 "instrument:5" (by simp)⟩,
         ⟨h2.2.1, h2.2.2.2 "private" (by simp)⟩⟩

/-- C10: a recognized-topic entry with malformed content makes
`parseMessages` throw for the whole envelope — no results at all, the
entries preceding the malformed one included — and `handleMessage` catches
the exception after the raw `message` event was emitted, so no typed
rate/private event from that frame is ever fanned out. -/
theorem malformed_entry_drops_frame (jp : String → Option Parser.Json) (st : WsState)
    (msgs : List Parser.WsMessage) (m : Parser.WsMessage) (hm : m ∈ msgs)
    (hrec : Parser.strStartsWith m.topic "instrument:" ∨ m.topic = "private")
    (hbad : jp m.content = none) :
    Parser.parseMessages jp msgs = .error () ∧
    handleMessage jp st (.dataFrame msgs) = (st, [.messageEv msgs]) := by
  have herr := Parser.parseMessages_error_of_malformed jp msgs m hm hrec hbad
  exact ⟨herr, by simp [handleMessage, herr]⟩

/-- Witness for C10: a frame whose first entry is a valid instrument entry
and whose second, `private` entry has malformed content produces no parse
results and fans out no typed events. -/
theorem malformed_entry_drops_frame_witness :
    Parser.parseMessages wJpSel wEnvWithBad = .error () ∧
    handleMessage wJpSel wWsOpen (.dataFrame wEnvWithBad)
      = (wWsOpen, [.messageEv wEnvWithBad]) :=
  malformed_entry_drops_frame wJpSel wWsOpen wEnvWithBad
    { topic := "private", content := "bad", id := "2", type := "T" }
    (by decide) (Or.inr rfl) (by decide)

end Ws

/-! ## Theorems: order completion tracker -/

namespace OrderTracker

/-- C1 counterexample: with `waitForOrder(42, 30000)` pending and the WS
path silent, a REST poll observing the order Cancelled (with server reason
`User cancelled`) makes `pollOrderStatus` throw the descriptive error, but
the fallback's `.catch` swallows it: the returned future is left exactly as
it was — unsettled, with no outcome — rather than rejected. -/
theorem poll_terminal_failure_swallowed_counterexample :
    exceptErr (pollOrderStatus 42 27000 [.fetched wInfoCancelled])
      = some "Order 42 was Cancelled: User cancelled" ∧
    pollTimerFire wWait [.fetched wInfoCancelled] = wWait ∧
    wWait.settled = false ∧ wWait.outcome = none := by
  decide

/-- C1 amended: once the poll fallback runs with the wait still pending, an
Executed status observed by the poll resolves the future with the
constructed order event (and only Executed makes the poll fulfil); a Failed
or Cancelled status makes `pollOrderStatus` throw an error carrying the
server-supplied reason, but that rejection is caught and only logged — the
future is not rejected by the poll path and keeps waiting for the WS event
or the outer timeout. -/
theorem waitForOrder_poll_settlement (w : OrderWait) (hpend : w.settled = false) :
    (∀ info : OrderInfo, pollSettle w (.ok info)
        = cleanup { w with
                    settled := true,
                    outcome := some (.resolvedWith (eventFromInfo info)) }) ∧
    (∀ s : String, pollSettle w (.error s) = w) ∧
    (∀ (oid : Int) (t : ℚ) (info : OrderInfo) (rest : List PollFetch),
        info.statusID = 4 ∨ info.statusID = 5 →
        pollOrderStatus oid t (.fetched info :: rest) = .error (pollFailMsg oid info)) ∧
    (∀ (oid : Int) (t : ℚ) (fetches : List PollFetch) (info : OrderInfo),
        pollOrderStatus oid t fetches = .ok info → info.statusID = 3) := by
  refine ⟨?_, ?_, ?_, ?_⟩
  · intro info
    simp [pollSettle, hpend]
  · intro s
    simp [pollSettle]
  · intro oid t info rest h
    have h3 : ¬ info.statusID = 3 := by omega
    simp only [pollOrderStatus]
    rw [if_neg h3, if_pos h.symm]
  · intro oid t fetches
    induction fetches with
    | nil =>
      intro info h
      simp [pollOrderStatus] at h
    | cons f rest ih =>
      intro info h
      cases f with
      | httpError => exact ih info (by simpa [pollOrderStatus] using h)
      | fetched i =>
        by_cases h3 : i.statusID = 3
        · simp [pollOrderStatus, h3] at h
          rw [← h]
          exact h3
        · by_cases h45 : i.statusID = 5 ∨ i.statusID = 4
          · simp [pollOrderStatus, h3, h45] at h
          · simp [pollOrderStatus, h3, h45] at h
            exact ih info h

/-- Witness for the amended C1 theorem on the pending wait for order 42. -/
theorem waitForOrder_poll_settlement_witness :
    pollSettle wWait (.ok wInfoExecuted)
      = cleanup { wWait with
                  settled := true,
                  outcome := some (.resolvedWith (eventFromInfo wInfoExecuted)) } ∧
    pollSettle wWait (.error "boom") = wWait ∧
    pollOrderStatus 42 27000 [.fetched wInfoCancelled, .httpError]
      = .error (pollFailMsg 42 wInfoCancelled) ∧
    wInfoExecuted.statusID = 3 := by
  have h := waitForOrder_poll_settlement wWait rfl
  exact ⟨h.1 wInfoExecuted, h.2.1 "boom",
         h.2.2.1 42 27000 wInfoCancelled [.httpError] (Or.inr rfl),
         h.2.2.2 42 27000 [.fetched wInfoExecuted] wInfoExecuted rfl⟩

end OrderTracker

end EToro
